import Mathlib

/-!
# Verification of the airline-reviews EDA utilities

Shallow embedding of `src/functions/eda_utils.py`.  A pandas `DataFrame`
is modelled as a list of rows; a row is an association list from column
name to cell value.  Cell values are either (exact) rationals — the
idealisation of the floating-point numbers the code computes with — or
strings (categorical data).  Each routine of the library is translated
into a pure Lean function returning the data it prints or hands to the
rendering collaborator (matplotlib/seaborn), which is outside the scope
of the code under verification.
-/

/-- A cell of the data table: numeric (rationals idealise the floats the
code computes with) or categorical (a string). -/
inductive Val where
  | num (q : ℚ)
  | str (s : String)
deriving DecidableEq

/-- A row of the table: an association list from column name to value. -/
abbrev Row := List (String × Val)

/-- The data table (`pandas.DataFrame`): a list of rows. -/
abbrev Table := List Row

/-- Cell access `row[c]` (first binding of the column name wins). -/
def getCell (r : Row) (c : String) : Option Val :=
  List.lookup c r

/-- The column `df[c]` as the list of values present in the rows
(rows lacking the column contribute nothing; all claims assume the
named columns exist in every row). -/
def columnVals (c : String) (df : Table) : List Val :=
  df.filterMap (fun r => getCell r c)

/-- The numeric content of column `df[c]`: the rational values, in row
order.  Non-numeric cells are dropped, matching pandas' numeric
aggregation over a column whose relevant entries are numbers. -/
def colQ (c : String) (df : Table) : List ℚ :=
  df.filterMap (fun r =>
    match getCell r c with
    | some (Val.num q) => some q
    | _ => none)

/-- Row filter `df[df[s] == v]`. -/
def filterTable (s : String) (v : Val) (df : Table) : Table :=
  df.filter (fun r => getCell r s == some v)

/-- Tail of `Series.unique()`: walk the list keeping the first
occurrence of each value, accumulating the kept values in reverse. -/
def uniqueValsAux (acc : List Val) : List Val → List Val
  | [] => acc.reverse
  | v :: rest =>
    if v ∈ acc then uniqueValsAux acc rest
    else uniqueValsAux (v :: acc) rest

/-- `Series.unique()`: distinct values in order of first occurrence. -/
def uniqueVals (l : List Val) : List Val := uniqueValsAux [] l

theorem mem_of_mem_uniqueValsAux {a : Val} :
    ∀ {acc l : List Val}, a ∈ uniqueValsAux acc l → a ∈ acc ∨ a ∈ l
  | acc, [], h => by
    rw [uniqueValsAux] at h
    exact Or.inl (List.mem_reverse.mp h)
  | acc, v :: rest, h => by
    rw [uniqueValsAux] at h
    by_cases hv : v ∈ acc
    · rw [if_pos hv] at h
      rcases mem_of_mem_uniqueValsAux h with h | h
      · exact Or.inl h
      · exact Or.inr (List.mem_cons_of_mem _ h)
    · rw [if_neg hv] at h
      rcases mem_of_mem_uniqueValsAux h with h | h
      · rcases List.mem_cons.mp h with h | h
        · exact Or.inr (List.mem_cons.mpr (Or.inl h))
        · exact Or.inl h
      · exact Or.inr (List.mem_cons_of_mem _ h)

theorem mem_of_mem_uniqueVals {a : Val} {l : List Val} (h : a ∈ uniqueVals l) : a ∈ l := by
  rcases mem_of_mem_uniqueValsAux h with h | h
  · exact absurd h (List.not_mem_nil a)
  · exact h

/-- The ordering pandas `groupby(..., sort=True)` uses on group keys:
numbers by magnitude, strings lexicographically (a data table groups on
a homogeneous key column; the cross cases are an arbitrary completion
making the relation total). -/
def valLE : Val → Val → Prop
  | Val.num a, Val.num b => a ≤ b
  | Val.num _, Val.str _ => True
  | Val.str _, Val.num _ => False
  | Val.str a, Val.str b => a ≤ b

instance : DecidableRel valLE := fun a b =>
  match a, b with
  | Val.num a, Val.num b => inferInstanceAs (Decidable (a ≤ b))
  | Val.num _, Val.str _ => inferInstanceAs (Decidable True)
  | Val.str _, Val.num _ => inferInstanceAs (Decidable False)
  | Val.str a, Val.str b => inferInstanceAs (Decidable (a ≤ b))

/-- Group keys of `df.groupby(s)`: the distinct values of column `s`,
sorted ascending (pandas groupby sorts keys by default). -/
def groupKeys (s : String) (df : Table) : List Val :=
  List.insertionSort valLE (uniqueVals (columnVals s df))

/-- `Series.mean()`: arithmetic mean.  (The empty case never arises for
a group, which contains at least the row that produced its key; Lean's
division-by-zero convention stands in for pandas' NaN.) -/
def qmean (l : List ℚ) : ℚ := l.sum / l.length

/-- Descending-by-value order used to model
`Series.sort_values(ascending=False)` on a key→value series. -/
def descByVal (a b : Val × ℚ) : Prop := b.2 ≤ a.2

instance : DecidableRel descByVal := fun a b =>
  inferInstanceAs (Decidable (b.2 ≤ a.2))

instance : IsTotal (Val × ℚ) descByVal :=
  ⟨fun a b => le_total b.2 a.2⟩

instance : IsTrans (Val × ℚ) descByVal :=
  ⟨fun _ _ _ h1 h2 => le_trans h2 h1⟩

/-- Line 134 of `eda_utils.py`:
`percent = (df.groupby(splitter)[feature].mean()*100).sort_values(ascending=False)`.
The function body then renders this series as a bar chart (with a bar
label `f-percent-value-:.1f-%` over each bar) and shows it; the series
is the only computed data, so it is the model's output.  The `colour`
parameter only affects rendering.  pandas' `sort_values` uses an
unstable sort, so the relative order of groups with equal percentage is
unspecified there; the model uses a stable sort, one of the admissible
outcomes. -/
def plot_percentage (splitter feature : String) (df : Table) : List (Val × ℚ) :=
  List.insertionSort descByVal
    ((groupKeys splitter df).map
      (fun k => (k, qmean (colQ feature (filterTable splitter k df)) * 100)))

/-- The example table of the spec: `Recommended = [1,0,1,1]`,
`Type = [A,A,B,B]`. -/
def exampleDf : Table :=
  [ [("Recommended", Val.num 1), ("Type", Val.str "A")],
    [("Recommended", Val.num 0), ("Type", Val.str "A")],
    [("Recommended", Val.num 1), ("Type", Val.str "B")],
    [("Recommended", Val.num 1), ("Type", Val.str "B")] ]

/-- C1 (counterexample): on the spec's own example table
(`Recommended` = [1,0,1,1], `Type` = [A,A,B,B]) the percentage series
does not assign 50.0 to group B: B's group mean of `Recommended` is
(1+1)/2 = 1, so its bar value is 100.0, not the claimed 50.0. -/
theorem c1_counterexample :
    (Val.str "B", (50 : ℚ)) ∉ plot_percentage "Type" "Recommended" exampleDf := by
  norm_num [plot_percentage, groupKeys, uniqueVals, uniqueValsAux, columnVals, getCell,
    colQ, filterTable, qmean, descByVal, valLE, List.insertionSort, List.orderedInsert,
    List.filterMap, List.lookup, List.filter, exampleDf]
  decide

/-- C1 (amended): for the table with `Recommended` = [1,0,1,1] and
`Type` = [A,A,B,B], `plot_percentage('Type','Recommended',df)` computes
the bar-chart values A=50.0 and B=100.0 (each group's value being the
group mean of `Recommended` times 100), displayed in descending order
B, A. -/
theorem c1_example_values :
    plot_percentage "Type" "Recommended" exampleDf =
      [(Val.str "B", 100), (Val.str "A", 50)] := by
  norm_num [plot_percentage, groupKeys, uniqueVals, uniqueValsAux, columnVals, getCell,
    colQ, filterTable, qmean, descByVal, valLE, List.insertionSort, List.orderedInsert,
    List.filterMap, List.lookup, List.filter, exampleDf]

theorem mem_colQ_iff {c : String} {df : Table} {q : ℚ} :
    q ∈ colQ c df ↔ ∃ r ∈ df, getCell r c = some (Val.num q) := by
  rw [colQ, List.mem_filterMap]
  constructor
  · rintro ⟨r, hr, hm⟩
    refine ⟨r, hr, ?_⟩
    cases hc : getCell r c with
    | none => rw [hc] at hm; cases hm
    | some v =>
      cases v with
      | num q' =>
        rw [hc] at hm
        simp only [Option.some.injEq] at hm
        rw [hm]
      | str s => rw [hc] at hm; cases hm
  · rintro ⟨r, hr, hc⟩
    exact ⟨r, hr, by rw [hc]⟩

theorem mem_filterTable {s : String} {v : Val} {df : Table} {r : Row} :
    r ∈ filterTable s v df ↔ r ∈ df ∧ getCell r s = some v := by
  rw [filterTable, List.mem_filter]
  simp only [beq_iff_eq]

theorem exists_row_of_mem_groupKeys {s : String} {df : Table} {k : Val}
    (h : k ∈ groupKeys s df) : ∃ r ∈ df, getCell r s = some k := by
  rw [groupKeys, List.mem_insertionSort] at h
  have h2 := mem_of_mem_uniqueVals h
  rw [columnVals, List.mem_filterMap] at h2
  exact h2

theorem qmean_zero_one_bounds {l : List ℚ} (hne : l ≠ [])
    (h01 : ∀ x ∈ l, x = 0 ∨ x = 1) : 0 ≤ qmean l ∧ qmean l ≤ 1 := by
  have hlen : 0 < (l.length : ℚ) := by
    exact_mod_cast List.length_pos.mpr hne
  have hsum0 : 0 ≤ l.sum := by
    refine List.sum_nonneg ?_
    intro x hx
    rcases h01 x hx with h | h <;> rw [h] <;> norm_num
  have hsum1 : l.sum ≤ (l.length : ℚ) := by
    have h := List.sum_le_card_nsmul l 1 ?_
    · simpa using h
    · intro x hx
      rcases h01 x hx with h | h <;> rw [h] <;> norm_num
  exact ⟨div_nonneg hsum0 (le_of_lt hlen), by rw [qmean, div_le_one hlen]; exact hsum1⟩

/-- C2: for every table whose `feature` column is 0/1-valued,
`plot_percentage` computes, per group, the mean of the feature column
over that group times 100; every computed per-group value lies in
[0, 100]; and the displayed sequence of values (descending sort) is
non-increasing. -/
theorem c2_percentage_bounds_sorted (splitter feature : String) (df : Table)
    (hf : ∀ r ∈ df, getCell r feature = some (Val.num 0) ∨ getCell r feature = some (Val.num 1)) :
    (∀ p ∈ plot_percentage splitter feature df,
        p.2 = qmean (colQ feature (filterTable splitter p.1 df)) * 100 ∧
        0 ≤ p.2 ∧ p.2 ≤ 100) ∧
    List.Sorted (fun a b : ℚ => b ≤ a)
      ((plot_percentage splitter feature df).map Prod.snd) := by
  constructor
  · intro p hp
    rw [plot_percentage, List.mem_insertionSort, List.mem_map] at hp
    obtain ⟨k, hk, hpk⟩ := hp
    subst hpk
    refine ⟨rfl, ?_⟩
    obtain ⟨r, hr, hrs⟩ := exists_row_of_mem_groupKeys hk
    have hrsub : r ∈ filterTable splitter k df := mem_filterTable.mpr ⟨hr, hrs⟩
    have hne : colQ feature (filterTable splitter k df) ≠ [] := by
      intro hnil
      rcases hf r hr with h0 | h0
      · have hmem : (0 : ℚ) ∈ colQ feature (filterTable splitter k df) :=
          mem_colQ_iff.mpr ⟨r, hrsub, h0⟩
        rw [hnil] at hmem
        exact absurd hmem (List.not_mem_nil _)
      · have hmem : (1 : ℚ) ∈ colQ feature (filterTable splitter k df) :=
          mem_colQ_iff.mpr ⟨r, hrsub, h0⟩
        rw [hnil] at hmem
        exact absurd hmem (List.not_mem_nil _)
    have h01 : ∀ x ∈ colQ feature (filterTable splitter k df), x = 0 ∨ x = 1 := by
      intro x hx
      obtain ⟨r2, hr2, hc2⟩ := mem_colQ_iff.mp hx
      have hr2df : r2 ∈ df := (mem_filterTable.mp hr2).1
      rcases hf r2 hr2df with h | h <;> rw [hc2] at h <;>
        simp only [Option.some.injEq, Val.num.injEq] at h
      · exact Or.inl h
      · exact Or.inr h
    obtain ⟨hb0, hb1⟩ := qmean_zero_one_bounds hne h01
    show 0 ≤ qmean (colQ feature (filterTable splitter k df)) * 100 ∧
      qmean (colQ feature (filterTable splitter k df)) * 100 ≤ 100
    constructor
    · positivity
    · nlinarith
  · have hs := List.sorted_insertionSort descByVal
      ((groupKeys splitter df).map
        (fun k => (k, qmean (colQ feature (filterTable splitter k df)) * 100)))
    rw [plot_percentage]
    exact List.pairwise_map.mpr (hs.imp (fun h => h))

/-- Witness for C2 at the concrete example table. -/
theorem c2_witness :
    (∀ p ∈ plot_percentage "Type" "Recommended" exampleDf,
        p.2 = qmean (colQ "Recommended" (filterTable "Type" p.1 exampleDf)) * 100 ∧
        0 ≤ p.2 ∧ p.2 ≤ 100) ∧
    List.Sorted (fun a b : ℚ => b ≤ a)
      ((plot_percentage "Type" "Recommended" exampleDf).map Prod.snd) :=
  c2_percentage_bounds_sorted "Type" "Recommended" exampleDf (by decide)

/-- First-occurrence distinct values of a list of rationals (used for
the tie-correction term of the Kruskal-Wallis statistic). -/
def uniqueQAux (acc : List ℚ) : List ℚ → List ℚ
  | [] => acc.reverse
  | v :: rest =>
    if v ∈ acc then uniqueQAux acc rest
    else uniqueQAux (v :: acc) rest

def uniqueQ (l : List ℚ) : List ℚ := uniqueQAux [] l

/-- Midrank of `x` in the pooled sample: ranks run from 1 to N and tied
observations share the average of the positions they occupy. -/
def midrank (pool : List ℚ) (x : ℚ) : ℚ :=
  (pool.countP (fun y => decide (y < x)) : ℚ) +
    ((pool.countP (fun y => y == x) : ℚ) + 1) / 2

/-- The tie-corrected Kruskal-Wallis H statistic over the given groups:
H = [12/(N(N+1)) * Σ R_i^2/n_i - 3(N+1)] / [1 - ΣT/(N^3-N)] where R_i
is the rank sum of group i and T ranges over t^3 - t for each tie group
of size t.  (When every pooled value is identical the divisor is zero;
Lean's division-by-zero convention applies there.) -/
def kruskalH (groups : List (List ℚ)) : ℚ :=
  let pool := groups.flatten
  let N : ℚ := pool.length
  let base := 12 / (N * (N + 1)) *
      (groups.map (fun g => ((g.map (midrank pool)).sum) ^ 2 / (g.length : ℚ))).sum
    - 3 * (N + 1)
  let tie := ((uniqueQ pool).map (fun v =>
      ((pool.countP (fun y => y == v) : ℚ) ^ 3 -
        (pool.countP (fun y => y == v) : ℚ)))).sum
  base / (1 - tie / (N ^ 3 - N))

/-- Modelled from the spec: `scipy.stats.kruskal` is the statistics
collaborator of section 6, which is not part of this repository's
sources.  Per sections 6-7 it returns `(statistic, p_value)` and fails
with a usage error when given fewer than two groups.  The p-value is
the chi-squared survival function of the statistic at `k - 1` degrees
of freedom — a transcendental function determined by the statistic and
the group count — so the model's success payload is the tie-corrected
H statistic together with the number of groups. -/
def scipyKruskal (groups : List (List ℚ)) : Except String (ℚ × ℕ) :=
  if groups.length < 2 then
    Except.error "Need at least two groups in stats.kruskal()"
  else
    Except.ok (kruskalH groups, groups.length)

/-- Lines 76-81 of `eda_utils.py`: extract the feature values of each
group given by `df[splitter].unique()` and run the Kruskal-Wallis test
on them; on success the routine prints the statistic and p-value. -/
def kruskal (splitter feature : String) (df : Table) : Except String (ℚ × ℕ) :=
  scipyKruskal ((uniqueVals (columnVals splitter df)).map
    (fun k => colQ feature (filterTable splitter k df)))

/-- C3: with exactly one distinct group value the Kruskal-Wallis call
fails (fewer than two groups); with at least two distinct group values
it succeeds and prints the statistic and p-value. -/
theorem c3_kruskal_group_count (splitter feature : String) (df : Table) :
    ((uniqueVals (columnVals splitter df)).length = 1 →
      kruskal splitter feature df =
        Except.error "Need at least two groups in stats.kruskal()") ∧
    (2 ≤ (uniqueVals (columnVals splitter df)).length →
      ∃ out, kruskal splitter feature df = Except.ok out) := by
  constructor
  · intro h
    simp [kruskal, scipyKruskal, List.length_map, h]
  · intro h
    simp only [kruskal, scipyKruskal, List.length_map]
    rw [if_neg (by omega)]
    exact ⟨_, rfl⟩

/-- A table whose grouping column `g` has exactly one distinct value. -/
def kruskalDf1 : Table :=
  [ [("g", Val.str "A"), ("v", Val.num 1)],
    [("g", Val.str "A"), ("v", Val.num 2)] ]

/-- A table whose grouping column `g` has two distinct values. -/
def kruskalDf2 : Table :=
  [ [("g", Val.str "A"), ("v", Val.num 1)],
    [("g", Val.str "B"), ("v", Val.num 2)] ]

/-- Witness for C3 at two concrete tables. -/
theorem c3_witness :
    kruskal "g" "v" kruskalDf1 =
      Except.error "Need at least two groups in stats.kruskal()" ∧
    ∃ out, kruskal "g" "v" kruskalDf2 = Except.ok out :=
  ⟨(c3_kruskal_group_count "g" "v" kruskalDf1).1 (by decide),
   (c3_kruskal_group_count "g" "v" kruskalDf2).2 (by decide)⟩

/-- Lines 283-288 of `eda_utils.py`: the fixed traveller-type →
colour mapping. -/
def color_map : List (Val × String) :=
  [ (Val.str "Solo Leisure", "lightblue"),
    (Val.str "Business", "red"),
    (Val.str "Family Leisure", "green"),
    (Val.str "Couple Leisure", "orange") ]

/-- Descending-by-count order modelling `Series.value_counts()`'s
ordering of its result. -/
def descByCount (a b : Val × ℕ) : Prop := b.2 ≤ a.2

instance : DecidableRel descByCount := fun a b =>
  inferInstanceAs (Decidable (b.2 ≤ a.2))

/-- `Series.value_counts()`: occurrence count of each distinct value,
sorted by count descending (pandas' unstable sort modelled by a stable
one). -/
def valueCounts (c : String) (df : Table) : List (Val × ℕ) :=
  List.insertionSort descByCount
    ((uniqueVals (columnVals c df)).map (fun v => (v, (columnVals c df).count v)))

/-- Lines 279-280: `traveller_counts / traveller_counts.sum() * 100`. -/
def travellerPercentages (df : Table) : List (Val × ℚ) :=
  (valueCounts "Type of Traveller" df).map
    (fun p => (p.1, (p.2 : ℚ) /
      ((valueCounts "Type of Traveller" df).map (fun q => (q.2 : ℚ))).sum * 100))

/-- Line 291: `traveller_types = traveller_percentages.index.tolist()`. -/
def travellerTypesList (df : Table) : List Val :=
  (travellerPercentages df).map Prod.fst

/-- Line 294: `[color_map[traveller] for traveller in traveller_types]`.
A Python list comprehension over a dict indexing raises `KeyError` at
the first unmapped element; the model reports the failure through
`Except`. -/
def buildColors : List Val → Except String (List String)
  | [] => Except.ok []
  | t :: rest =>
    match List.lookup t color_map with
    | some c => (buildColors rest).map (fun cs => c :: cs)
    | none => Except.error "KeyError"

/-- The colour list for the pie chart (line 294). -/
def travellerPieColors (df : Table) : Except String (List String) :=
  buildColors (travellerTypesList df)

/-- Line 300: `[color_map.get(traveller) for traveller in
type_percent.index]` — `dict.get` returns `None` on a missing key, so
this list always builds, with `none` standing for Python's `None`. -/
def travellerBarColors (df : Table) : List (Option String) :=
  (plot_percentage "Type of Traveller" "Recommended" df).map
    (fun p => List.lookup p.1 color_map)

/-- Whether an `Except` result is a failure. -/
def isErr {α : Type} : Except String α → Bool
  | Except.error _ => true
  | Except.ok _ => false

theorem isErr_map {α β : Type} (f : α → β) (e : Except String α) :
    isErr (Except.map f e) = isErr e := by
  cases e <;> rfl

theorem buildColors_isErr {ts : List Val} {t : Val}
    (ht : t ∈ ts) (hm : List.lookup t color_map = none) :
    isErr (buildColors ts) = true := by
  induction ts with
  | nil => cases ht
  | cons a rest ih =>
    cases hl : List.lookup a color_map with
    | none => simp only [buildColors, hl]; rfl
    | some c =>
      rcases List.mem_cons.mp ht with h | h
      · subst h; rw [hl] at hm; cases hm
      · simp only [buildColors, hl]
        rw [isErr_map]
        exact ih h

/-- A table with an observed traveller type (`Other`) that is absent
from the fixed colour mapping. -/
def travellerDfUnmapped : Table :=
  [ [("Type of Traveller", Val.str "Other"), ("Recommended", Val.num 1),
     ("Overall Rating", Val.num 5)] ]

/-- C4 (counterexample): on a table that observes the unmapped
traveller type `Other`, the pie-chart colour list raises a lookup
failure, but the bar-chart colour list does not — it is built with
`dict.get` and evaluates to `[None]` without any failure, contradicting
the claim that both lookups fail. -/
theorem c4_counterexample :
    travellerPieColors travellerDfUnmapped = Except.error "KeyError" ∧
    travellerBarColors travellerDfUnmapped = [none] := by
  constructor
  · rfl
  · rfl

/-- C4 (amended): in `traveller_type`, when some observed
'Type of Traveller' category is absent from the fixed colour mapping,
building the pie-chart colour list raises a lookup failure; the colour
list for the percentage bar chart never fails — it is built with
`dict.get` and carries `None` for each unmapped category. -/
theorem c4_color_lookup (df : Table)
    (h : ∃ t ∈ travellerTypesList df, List.lookup t color_map = none) :
    isErr (travellerPieColors df) = true ∧
    ∀ p ∈ plot_percentage "Type of Traveller" "Recommended" df,
      List.lookup p.1 color_map = none → none ∈ travellerBarColors df := by
  obtain ⟨t, ht, hm⟩ := h
  refine ⟨buildColors_isErr ht hm, ?_⟩
  intro p hp hnone
  rw [travellerBarColors]
  exact List.mem_map.mpr ⟨p, hp, hnone⟩

/-- Witness for C4 at the concrete unmapped-category table. -/
theorem c4_witness :
    isErr (travellerPieColors travellerDfUnmapped) = true ∧
    ∀ p ∈ plot_percentage "Type of Traveller" "Recommended" travellerDfUnmapped,
      List.lookup p.1 color_map = none → none ∈ travellerBarColors travellerDfUnmapped :=
  c4_color_lookup travellerDfUnmapped (by decide)

/-- The loop of lines 40-47 of `eda_utils.py`, carrying the running
subplot index.  For each group key: the Shapiro-Wilk test and the Q-Q
plot consume the group's feature values, and the Q-Q plot is drawn on
`axes[i]`, which raises `IndexError` when `i` is not below the number
of axes.  The statistics collaborator (`scipy.stats.shapiro`,
`scipy.stats.probplot`) is modelled per section 6 of the spec as a
total function of its input sample, so the success payload records each
group's key with its feature values, in loop order. -/
def ncLoop (axesLen : ℕ) (splitter feature : String) (df : Table) :
    List Val → ℕ → Except String (List (Val × List ℚ))
  | [], _ => Except.ok []
  | k :: rest, i =>
    if i < axesLen then
      (ncLoop axesLen splitter feature df rest (i + 1)).map
        (fun acc => (k, colQ feature (filterTable splitter k df)) :: acc)
    else Except.error "IndexError: index out of range"

/-- Lines 36-50 of `eda_utils.py`.  `plt.subplots(ver_plots, hor_plots)`
produces `ver_plots * hor_plots` axes; line 38 flattens them to a list
(a 1x1 grid gives a bare Axes object, wrapped into a one-element list —
still `ver_plots * hor_plots`).  The loop then walks
`df[splitter].unique()` with index `i` accessing `axes[i]`. -/
def normality_check (ver_plots hor_plots : ℕ) (splitter feature : String)
    (df : Table) : Except String (List (Val × List ℚ)) :=
  ncLoop (ver_plots * hor_plots) splitter feature df
    (uniqueVals (columnVals splitter df)) 0

theorem ncLoop_spec (axesLen : ℕ) (splitter feature : String) (df : Table) :
    ∀ (ks : List Val) (i : ℕ),
      (i + ks.length ≤ axesLen →
        ∃ out, ncLoop axesLen splitter feature df ks i = Except.ok out) ∧
      (axesLen < i + ks.length → ks ≠ [] →
        ncLoop axesLen splitter feature df ks i =
          Except.error "IndexError: index out of range") := by
  intro ks
  induction ks with
  | nil =>
    intro i
    exact ⟨fun _ => ⟨[], rfl⟩, fun _ h => absurd rfl h⟩
  | cons k rest ih =>
    intro i
    constructor
    · intro h
      have hi : i < axesLen := by
        simp only [List.length_cons] at h
        omega
      obtain ⟨out, hout⟩ := (ih (i + 1)).1 (by simp only [List.length_cons] at h; omega)
      refine ⟨(k, colQ feature (filterTable splitter k df)) :: out, ?_⟩
      rw [ncLoop, if_pos hi, hout]
      rfl
    · intro h _
      by_cases hi : i < axesLen
      · have hrest : rest ≠ [] := by
          intro hnil
          rw [hnil] at h
          simp only [List.length_cons, List.length_nil] at h
          omega
        have herr := (ih (i + 1)).2
          (by simp only [List.length_cons] at h; omega) hrest
        rw [ncLoop, if_pos hi, herr]
        rfl
      · rw [ncLoop, if_neg hi]

/-- C8: if the subplot grid capacity `ver_plots * hor_plots` is at
least the number of distinct values of the grouping column, every
subplot access of the loop is in range and the routine succeeds; if the
number of distinct groups exceeds the capacity, the routine fails with
an out-of-range access. -/
theorem c8_normality_grid_capacity (ver_plots hor_plots : ℕ)
    (splitter feature : String) (df : Table) :
    ((uniqueVals (columnVals splitter df)).length ≤ ver_plots * hor_plots →
      ∃ out, normality_check ver_plots hor_plots splitter feature df = Except.ok out) ∧
    (ver_plots * hor_plots < (uniqueVals (columnVals splitter df)).length →
      normality_check ver_plots hor_plots splitter feature df =
        Except.error "IndexError: index out of range") := by
  constructor
  · intro h
    exact (ncLoop_spec (ver_plots * hor_plots) splitter feature df
      (uniqueVals (columnVals splitter df)) 0).1 (by omega)
  · intro h
    have hne : uniqueVals (columnVals splitter df) ≠ [] := by
      intro hnil
      rw [hnil] at h
      simp only [List.length_nil] at h
      omega
    exact (ncLoop_spec (ver_plots * hor_plots) splitter feature df
      (uniqueVals (columnVals splitter df)) 0).2 (by omega) hne

/-- Witness for C8: a 1x2 grid holds the two groups of `kruskalDf2`;
a 1x1 grid does not. -/
theorem c8_witness :
    (∃ out, normality_check 1 2 "g" "v" kruskalDf2 = Except.ok out) ∧
    normality_check 1 1 "g" "v" kruskalDf2 =
      Except.error "IndexError: index out of range" :=
  ⟨(c8_normality_grid_capacity 1 2 "g" "v" kruskalDf2).1 (by decide),
   (c8_normality_grid_capacity 1 1 "g" "v" kruskalDf2).2 (by decide)⟩

/-- A column sorted ascending (order statistics of `describe`). -/
def sortedQ (xs : List ℚ) : List ℚ :=
  List.insertionSort (fun a b : ℚ => a ≤ b) xs

/-- Linear-interpolation quantile (pandas `describe`'s default): with
the sample sorted ascending and h = p(n-1), the quantile is
s[⌊h⌋] + (h - ⌊h⌋) * (s[⌊h⌋+1] - s[⌊h⌋]) (the second term vanishing at
the top index). -/
def quantileQ (p : ℚ) (xs : List ℚ) : ℚ :=
  let s := sortedQ xs
  let h : ℚ := p * ((xs.length : ℚ) - 1)
  let i : ℕ := (Int.floor h).toNat
  let lo := s.getD i 0
  let hi := s.getD (i + 1) lo
  lo + (h - (i : ℚ)) * (hi - lo)

/-- One row of `DataFrame.describe()`'s output for a numeric column.
The standard deviation is kept as its square `var` (the ddof=1 sample
variance pandas takes the square root of); squaring is injective on the
nonnegative reals, so two summaries agree exactly when these records
do. -/
structure DescribeStats where
  count : ℕ
  mean : Option ℚ
  var : Option ℚ
  min : Option ℚ
  q25 : Option ℚ
  q50 : Option ℚ
  q75 : Option ℚ
  max : Option ℚ

/-- `describe()` of one numeric column: count, mean, sample variance
(square of the printed std), min, interpolated 25/50/75 percentiles,
max.  pandas prints NaN for the mean and order statistics of an empty
column and for the std of a single observation; `none` models NaN. -/
def describeCol (xs : List ℚ) : DescribeStats :=
  ⟨xs.length,
   if xs.length = 0 then none else some (qmean xs),
   if xs.length < 2 then none
     else some ((xs.map (fun x => (x - qmean xs) ^ 2)).sum / ((xs.length : ℚ) - 1)),
   (sortedQ xs).head?,
   if xs.length = 0 then none else some (quantileQ (1/4) xs),
   if xs.length = 0 then none else some (quantileQ (1/2) xs),
   if xs.length = 0 then none else some (quantileQ (3/4) xs),
   (sortedQ xs).getLast?⟩

/-- Lines 202-208 of `eda_utils.py`: `plot_combined_boxplot` draws one
box per feature of `df[features]`, titled by the subset label; the
computed data is the per-feature value lists. -/
def plot_combined_boxplot (split : Val) (features : List String) (df : Table) :
    Val × List (String × List ℚ) :=
  (split, features.map (fun f => (f, colQ f df)))

/-- What a call to `eda` prints and hands to its delegates. -/
structure EdaOutput where
  stats : List (String × DescribeStats)
  boxplotArgs : Val × List String × Table
  heatmapArgs : List String × Table

/-- Lines 239-249 of `eda_utils.py`: extract the subset
`df_eda = df[df[splitter]==split]`, print `df_eda[features].describe()`,
then call `plot_combined_boxplot(split, features, df_eda)` and
`correlation_matrix(features, df_eda)`.  The output records the printed
summary and the arguments handed to the two delegates. -/
def eda (splitter : String) (split : Val) (features : List String)
    (df : Table) : EdaOutput :=
  let df_eda := filterTable splitter split df
  ⟨features.map (fun f => (f, describeCol (colQ f df_eda))),
   (split, features, df_eda),
   (features, df_eda)⟩

/-- C5: `eda` restricts the table to exactly the rows whose grouping
column equals the target value; the descriptive statistics it prints
are, feature by feature, the standard summary (count, mean, std, min,
25/50/75 percentiles, max) computed over that same filtered subset; and
the box-plot and correlation-heatmap delegates receive that same subset
and the same feature list. -/
theorem c5_eda_subset_stats (splitter : String) (split : Val)
    (features : List String) (df : Table) :
    (∀ r, r ∈ (eda splitter split features df).boxplotArgs.2.2 ↔
        r ∈ df ∧ getCell r splitter = some split) ∧
    (eda splitter split features df).stats =
      features.map (fun f =>
        (f, describeCol (colQ f (filterTable splitter split df)))) ∧
    (eda splitter split features df).boxplotArgs =
      (split, features, filterTable splitter split df) ∧
    (eda splitter split features df).heatmapArgs =
      (features, filterTable splitter split df) :=
  ⟨fun _ => mem_filterTable, rfl, rfl, rfl⟩

/-- C10: the output of `eda` depends only on the rows whose `splitter`
column equals `split`: two tables agreeing there (and arbitrary
elsewhere) produce identical printed statistics and identical delegate
arguments. -/
theorem c10_eda_depends_only_on_subset (splitter : String) (split : Val)
    (features : List String) (df1 df2 : Table)
    (h : filterTable splitter split df1 = filterTable splitter split df2) :
    eda splitter split features df1 = eda splitter split features df2 := by
  simp only [eda, h]

/-- A one-row table whose row lies in the `g = X` subset. -/
def edaDf1 : Table := [ [("g", Val.str "X"), ("v", Val.num 3)] ]

/-- `edaDf1` plus an extra row outside the `g = X` subset. -/
def edaDf2 : Table :=
  [ [("g", Val.str "X"), ("v", Val.num 3)],
    [("g", Val.str "Y"), ("v", Val.num 7)] ]

/-- Witness for C10: the two concrete tables agree on the `g = X`
subset and `eda` cannot tell them apart. -/
theorem c10_witness :
    eda "g" (Val.str "X") ["v"] edaDf1 = eda "g" (Val.str "X") ["v"] edaDf2 :=
  c10_eda_depends_only_on_subset "g" (Val.str "X") ["v"] edaDf1 edaDf2 (by decide)

/-- Sum of products of the centred samples:
S_xy = Σ (x_i - x̄)(y_i - ȳ). -/
def sxy (xs ys : List ℚ) : ℚ :=
  (List.zipWith (fun a b => a * b)
    (xs.map (fun x => x - qmean xs)) (ys.map (fun y => y - qmean ys))).sum

/-- Pearson correlation r = S_xy / sqrt(S_xx * S_yy), the value pandas'
`corr` computes pairwise (the normalisations by the sample size cancel).
pandas emits NaN when the divisor is zero (a constant column); Lean's
division-by-zero convention (value 0) models those NaN entries.  The
reals idealise the floats; the square root forces this definition out
of ℚ. -/
noncomputable def pearson (xs ys : List ℚ) : ℝ :=
  (sxy xs ys : ℝ) / Real.sqrt ((sxy xs xs : ℝ) * (sxy ys ys : ℝ))

/-- Lines 102-104 of `eda_utils.py`: the value printed by
`correlation_coef` is `df[[a, b]].corr().iloc[0, 1]`, the Pearson
correlation of the two selected columns. -/
noncomputable def correlation_coef (feature_a feature_b : String) (df : Table) : ℝ :=
  pearson (colQ feature_a df) (colQ feature_b df)

/-- Lines 169-170 of `eda_utils.py`: `df[features].corr()`, the full
pairwise Pearson matrix over the selected columns, rendered as the
heatmap. -/
noncomputable def correlation_matrix (features : List String) (df : Table) :
    List (List ℝ) :=
  features.map (fun a => features.map (fun b => pearson (colQ a df) (colQ b df)))

/-- Entry [i][j] of a matrix stored as rows (0 when out of range; the
claims only use in-range indices). -/
noncomputable def mEntry (M : List (List ℝ)) (i j : ℕ) : ℝ :=
  ((M.get? i).bind (fun row => row.get? j)).getD 0

theorem sxy_comm (xs ys : List ℚ) : sxy xs ys = sxy ys xs := by
  rw [sxy, sxy, List.zipWith_comm_of_comm _ (fun a b : ℚ => mul_comm a b)]

theorem pearson_comm (xs ys : List ℚ) : pearson xs ys = pearson ys xs := by
  rw [pearson, pearson, sxy_comm xs ys,
    mul_comm ((sxy xs xs : ℚ) : ℝ) ((sxy ys ys : ℚ) : ℝ)]

theorem sxx_nonneg (xs : List ℚ) : 0 ≤ sxy xs xs := by
  rw [sxy, List.zipWith_same]
  refine List.sum_nonneg ?_
  intro x hx
  obtain ⟨y, _, rfl⟩ := List.mem_map.mp hx
  exact mul_self_nonneg _

theorem sum_eq_zero_all_zero {l : List ℚ} (h0 : ∀ x ∈ l, 0 ≤ x)
    (hs : l.sum = 0) : ∀ x ∈ l, x = 0 := by
  induction l with
  | nil => intro x hx; cases hx
  | cons a t ih =>
    rw [List.sum_cons] at hs
    have ha : 0 ≤ a := h0 a (List.mem_cons_self a t)
    have ht : 0 ≤ t.sum :=
      List.sum_nonneg (fun x hx => h0 x (List.mem_cons_of_mem _ hx))
    have ha0 : a = 0 := by linarith
    have hts : t.sum = 0 := by linarith
    intro x hx
    rcases List.mem_cons.mp hx with h | h
    · rw [h, ha0]
    · exact ih (fun y hy => h0 y (List.mem_cons_of_mem _ hy)) hts x h

theorem sxx_pos_of_two_ne {xs : List ℚ} {a b : ℚ}
    (ha : a ∈ xs) (hb : b ∈ xs) (hab : a ≠ b) : 0 < sxy xs xs := by
  rcases lt_or_eq_of_le (sxx_nonneg xs) with h | h
  · exact h
  · exfalso
    rw [sxy, List.zipWith_same] at h
    have hall := sum_eq_zero_all_zero
      (fun x hx => by
        obtain ⟨y, _, rfl⟩ := List.mem_map.mp hx
        exact mul_self_nonneg _)
      h.symm
    have hceq : ∀ x ∈ xs, x = qmean xs := by
      intro x hx
      have hmem : (x - qmean xs) * (x - qmean xs) ∈
          (xs.map (fun x => x - qmean xs)).map (fun a => a * a) :=
        List.mem_map.mpr ⟨x - qmean xs,
          List.mem_map.mpr ⟨x, hx, rfl⟩, rfl⟩
      have := hall _ hmem
      have hz := mul_self_eq_zero.mp this
      linarith
    exact hab ((hceq a ha).trans (hceq b hb).symm)

theorem pearson_self_eq_one {xs : List ℚ}
    (h : ∃ a ∈ xs, ∃ b ∈ xs, a ≠ b) : pearson xs xs = 1 := by
  obtain ⟨a, ha, b, hb, hab⟩ := h
  have hpos := sxx_pos_of_two_ne ha hb hab
  have hcast : (0 : ℝ) < ((sxy xs xs : ℚ) : ℝ) := by exact_mod_cast hpos
  rw [pearson, Real.sqrt_mul_self (le_of_lt hcast)]
  exact div_self (ne_of_gt hcast)

theorem mEntry_correlation_matrix (features : List String) (df : Table)
    (i j : ℕ) :
    mEntry (correlation_matrix features df) i j =
      match features.get? i, features.get? j with
      | some a, some b => pearson (colQ a df) (colQ b df)
      | _, _ => (0 : ℝ) := by
  rw [mEntry, correlation_matrix, List.get?_map]
  cases hi : features.get? i with
  | none => rfl
  | some a =>
    simp only [Option.map_some', Option.some_bind]
    rw [List.get?_map]
    cases hj : features.get? j with
    | none => rfl
    | some b => rfl

/-- Whether a cell holds a numeric value. -/
def isNumCell : Option Val → Bool
  | some (Val.num _) => true
  | _ => false

/-- Column `c` holds a numeric value in every row of `df`. -/
def numericColumn (c : String) (df : Table) : Prop :=
  ∀ r ∈ df, isNumCell (getCell r c) = true

instance (c : String) (df : Table) : Decidable (numericColumn c df) :=
  inferInstanceAs (Decidable (∀ r ∈ df, isNumCell (getCell r c) = true))

/-- C6: the correlation printed by `correlation_coef(a, b, df)` equals
the one printed by `correlation_coef(b, a, df)`, and equals the [a][b]
entry of the matrix computed by `correlation_matrix` whenever `a` and
`b` are among its feature list (label lookup modelled by the index of
the label in the feature list). -/
theorem c6_correlation_coef_symm (feature_a feature_b : String)
    (features : List String) (df : Table)
    (hA : numericColumn feature_a df) (hB : numericColumn feature_b df)
    (haf : feature_a ∈ features) (hbf : feature_b ∈ features) :
    correlation_coef feature_a feature_b df =
      correlation_coef feature_b feature_a df ∧
    correlation_coef feature_a feature_b df =
      mEntry (correlation_matrix features df)
        (features.indexOf feature_a) (features.indexOf feature_b) := by
  constructor
  · exact pearson_comm _ _
  · have h1 : features.get? (features.indexOf feature_a) = some feature_a :=
      List.indexOf_get? haf
    have h2 : features.get? (features.indexOf feature_b) = some feature_b :=
      List.indexOf_get? hbf
    rw [mEntry_correlation_matrix, h1, h2]
    rfl

/-- Two-column numeric table for the correlation witnesses. -/
def corrDf : Table :=
  [ [("a", Val.num 1), ("b", Val.num 3)],
    [("a", Val.num 2), ("b", Val.num 5)] ]

/-- Witness for C6 at a concrete two-column table. -/
theorem c6_witness :
    correlation_coef "a" "b" corrDf = correlation_coef "b" "a" corrDf ∧
    correlation_coef "a" "b" corrDf =
      mEntry (correlation_matrix ["a", "b"] corrDf)
        ((["a", "b"] : List String).indexOf "a")
        ((["a", "b"] : List String).indexOf "b") :=
  c6_correlation_coef_symm "a" "b" ["a", "b"] corrDf
    (by decide) (by decide) (by decide) (by decide)

/-- C7 (counterexample): on the table whose only column `a` is constant
([1, 1]), the diagonal entry of the correlation matrix is not 1: the
variance is zero, pandas emits NaN (modelled by the division-by-zero
default 0), falsifying `1.0 at every diagonal entry for every table`. -/
theorem c7_counterexample :
    mEntry (correlation_matrix ["a"] [[("a", Val.num 1)], [("a", Val.num 1)]]) 0 0 ≠ 1 := by
  have hcol : colQ "a" [[("a", Val.num 1)], [("a", Val.num 1)]] = [1, 1] := by
    rfl
  have hentry : mEntry (correlation_matrix ["a"]
      [[("a", Val.num 1)], [("a", Val.num 1)]]) 0 0 =
      pearson (colQ "a" [[("a", Val.num 1)], [("a", Val.num 1)]])
        (colQ "a" [[("a", Val.num 1)], [("a", Val.num 1)]]) := by
    rw [mEntry_correlation_matrix]
    rfl
  have hs : sxy ([1, 1] : List ℚ) ([1, 1] : List ℚ) = 0 := by
    norm_num [sxy, qmean, List.zipWith]
  rw [hentry, hcol, pearson, hs]
  norm_num

/-- C7 (amended): for every table and feature list, the matrix computed
by `correlation_matrix` is symmetric — unconditionally; and each
diagonal entry whose own column contains at least two distinct numeric
values equals 1.  (For a constant column the diagonal entry is pandas'
NaN — the zero-variance division — not 1, which is what the
counterexample exhibits.) -/
theorem c7_matrix_symm_diag (features : List String) (df : Table) :
    (∀ i j, mEntry (correlation_matrix features df) i j =
      mEntry (correlation_matrix features df) j i) ∧
    (∀ i, (hi : i < features.length) →
      (∃ a ∈ colQ (features.get ⟨i, hi⟩) df,
        ∃ b ∈ colQ (features.get ⟨i, hi⟩) df, a ≠ b) →
      mEntry (correlation_matrix features df) i i = 1) := by
  constructor
  · intro i j
    rw [mEntry_correlation_matrix, mEntry_correlation_matrix]
    cases hi : features.get? i with
    | none => cases hj : features.get? j with
      | none => rfl
      | some b => rfl
    | some a => cases hj : features.get? j with
      | none => rfl
      | some b => exact pearson_comm _ _
  · intro i hi hex
    have hget : features.get? i = some (features.get ⟨i, hi⟩) :=
      List.get?_eq_get hi
    rw [mEntry_correlation_matrix, hget]
    exact pearson_self_eq_one hex

/-- Witness for C7 at the concrete two-column table: a symmetric pair
of entries, and the diagonal entry of the non-constant column `a`. -/
theorem c7_witness :
    mEntry (correlation_matrix ["a", "b"] corrDf) 0 1 =
      mEntry (correlation_matrix ["a", "b"] corrDf) 1 0 ∧
    mEntry (correlation_matrix ["a", "b"] corrDf) 0 0 = 1 :=
  ⟨(c7_matrix_symm_diag ["a", "b"] corrDf).1 0 1,
   (c7_matrix_symm_diag ["a", "b"] corrDf).2 0 (by norm_num) (by decide)⟩

/-- What `traveller_type` prints and renders when it succeeds: the
figure label, the per-type summary of 'Overall Rating', each type's
percentage share (pie chart), the pie colour list, the
recommended-percentage series and its `dict.get` colour list. -/
structure TravellerOut where
  label : Val
  summary : List (Val × DescribeStats)
  percentages : List (Val × ℚ)
  pieColors : List String
  typePercent : List (Val × ℚ)
  barColors : List (Option String)

/-- Lines 252-309 of `eda_utils.py`: describe 'Overall Rating' grouped
by 'Type of Traveller', compute the type shares, build the pie colour
list (`color_map[t]`, which raises `KeyError` on an unmapped type and
aborts the routine), compute the recommended percentage per type, build
the `dict.get` colour list, and render pie and bar charts.  `split`
only labels the figures. -/
def traveller_type (split : Val) (df : Table) : Except String TravellerOut :=
  match travellerPieColors df with
  | Except.error e => Except.error e
  | Except.ok colors =>
      Except.ok ⟨split,
        (groupKeys "Type of Traveller" df).map
          (fun k => (k, describeCol
            (colQ "Overall Rating" (filterTable "Type of Traveller" k df)))),
        travellerPercentages df,
        colors,
        plot_percentage "Type of Traveller" "Recommended" df,
        travellerBarColors df⟩

/-- State-passing form of `normality_check`: the second component is
the binding of `df` at return.  No statement of the Python body rebinds
`df`, and every pandas/scipy/matplotlib call used returns a fresh
object rather than mutating its argument, so the routine hands back the
table it received.  The same translation note applies to all the
`*_run` forms below. -/
def normality_check_run (ver_plots hor_plots : ℕ) (splitter feature : String)
    (df : Table) : Except String (List (Val × List ℚ)) × Table :=
  (normality_check ver_plots hor_plots splitter feature df, df)

/-- State-passing form of `kruskal`. -/
def kruskal_run (splitter feature : String) (df : Table) :
    Except String (ℚ × ℕ) × Table :=
  (kruskal splitter feature df, df)

/-- State-passing form of `correlation_coef`. -/
noncomputable def correlation_coef_run (feature_a feature_b : String)
    (df : Table) : ℝ × Table :=
  (correlation_coef feature_a feature_b df, df)

/-- State-passing form of `plot_percentage`. -/
def plot_percentage_run (splitter feature : String) (df : Table) :
    List (Val × ℚ) × Table :=
  (plot_percentage splitter feature df, df)

/-- State-passing form of `correlation_matrix`. -/
noncomputable def correlation_matrix_run (features : List String)
    (df : Table) : List (List ℝ) × Table :=
  (correlation_matrix features df, df)

/-- State-passing form of `plot_combined_boxplot`. -/
def plot_combined_boxplot_run (split : Val) (features : List String)
    (df : Table) : (Val × List (String × List ℚ)) × Table :=
  (plot_combined_boxplot split features df, df)

/-- State-passing form of `eda`. -/
def eda_run (splitter : String) (split : Val) (features : List String)
    (df : Table) : EdaOutput × Table :=
  (eda splitter split features df, df)

/-- State-passing form of `traveller_type`. -/
def traveller_type_run (split : Val) (df : Table) :
    Except String TravellerOut × Table :=
  (traveller_type split df, df)

/-- C9: every routine of the library leaves the input table unchanged
— in the state-passing translation each routine returns the table it
received (also on the failure paths). -/
theorem c9_routines_pure :
    (∀ v h s f df, (normality_check_run v h s f df).2 = df) ∧
    (∀ s f df, (kruskal_run s f df).2 = df) ∧
    (∀ a b df, (correlation_coef_run a b df).2 = df) ∧
    (∀ s f df, (plot_percentage_run s f df).2 = df) ∧
    (∀ fs df, (correlation_matrix_run fs df).2 = df) ∧
    (∀ sp fs df, (plot_combined_boxplot_run sp fs df).2 = df) ∧
    (∀ s sp fs df, (eda_run s sp fs df).2 = df) ∧
    (∀ sp df, (traveller_type_run sp df).2 = df) :=
  ⟨fun _ _ _ _ _ => rfl, fun _ _ _ => rfl, fun _ _ _ => rfl,
   fun _ _ _ => rfl, fun _ _ => rfl, fun _ _ _ => rfl,
   fun _ _ _ _ => rfl, fun _ _ => rfl⟩
